import Mathlib

/-!
Verification of the Bank_Inspired repository: the authenticated-request /
account-mutation flow.  The account-mutation routes and the Admin model are
not shipped under src (only server.js wires them), so the Account Mutation
Service and the Admin password hashing are modelled from the spec; the admin
seeding step (server.js, startMongo), the client fetch wrappers and the
dashboard handlers (AdminDashboard.jsx, EmployeeDashboard.jsx) are embedded
from the source.
-/

/-- Modelled from the spec: a User record (data model table §3); only the
fields the mutation service touches are kept (id, phone unique, balance). -/
structure User where
  id : Nat
  phone : String
  balance : Int
deriving DecidableEq

/-- Modelled from the spec: the transaction record type
(deposit / withdraw / transfer debit leg / transfer credit leg). -/
inductive TxnType where
  | deposit
  | withdraw
  | transferDebit
  | transferCredit
deriving DecidableEq

/-- Modelled from the spec: an append-only transaction record
`{owning user id, type, amount, counterparty, resultingBalance}`. -/
structure Txn where
  userId : Nat
  type : TxnType
  amount : Int
  resultingBalance : Int
  counterparty : Option Nat
deriving DecidableEq

/-- Modelled from the spec: the error taxonomy of the Account Mutation
Service (§4.2, §7). -/
inductive BankError where
  | InvalidAmount
  | InsufficientFunds
  | RecipientNotFound
  | SelfTransfer
  | UserNotFound
deriving DecidableEq

/-- Modelled from the spec: the document store as seen by the Account
Mutation Service: the User collection plus the append-only transaction log. -/
structure Bank where
  users : List User
  txns : List Txn
deriving DecidableEq

/-- Resolve a user by id in the User collection (store lookup keyed by id). -/
def findUser (us : List User) (uid : Nat) : Option User :=
  us.find? (fun u => u.id == uid)

/-- Resolve a user by phone number (store lookup keyed by the unique phone). -/
def findByPhone (us : List User) (p : String) : Option User :=
  us.find? (fun u => u.phone == p)

/-- Store update: overwrite the balance of the document(s) with the given id. -/
def setBalance (us : List User) (uid : Nat) (nb : Int) : List User :=
  us.map (fun u => if u.id = uid then { u with balance := nb } else u)

/-- Balance of an account as observable through the store. -/
def getBalance (b : Bank) (uid : Nat) : Option Int :=
  (findUser b.users uid).map (fun u => u.balance)

/-- Modelled from the spec: `Deposit(userId, amount)` (routes/deposit.js is
not under src).  Requires `amount > 0`; increases balance by `amount`; writes
one transaction record; fails with `InvalidAmount` if amount ≤ 0. -/
def deposit (b : Bank) (uid : Nat) (a : Int) : Except BankError Bank :=
  if a ≤ 0 then .error .InvalidAmount
  else
    match findUser b.users uid with
    | none => .error .UserNotFound
    | some u =>
        .ok ⟨setBalance b.users uid (u.balance + a),
             ⟨uid, .deposit, a, u.balance + a, none⟩ :: b.txns⟩

/-- Modelled from the spec: `Withdraw(userId, amount)` (routes/withdraw.js is
not under src).  Requires `amount > 0` and `amount ≤ currentBalance`;
decreases balance; writes one transaction record; fails with
`InsufficientFunds` when the amount exceeds the balance, `InvalidAmount`
when amount ≤ 0. -/
def withdraw (b : Bank) (uid : Nat) (a : Int) : Except BankError Bank :=
  if a ≤ 0 then .error .InvalidAmount
  else
    match findUser b.users uid with
    | none => .error .UserNotFound
    | some u =>
        if u.balance < a then .error .InsufficientFunds
        else
          .ok ⟨setBalance b.users uid (u.balance - a),
               ⟨uid, .withdraw, a, u.balance - a, none⟩ :: b.txns⟩

/-- The state a caller holds after a withdraw attempt: the mutated store on
success, the untouched store on any error (the error path performs no
mutation). -/
def withdrawRun (b : Bank) (uid : Nat) (a : Int) : Bank :=
  match withdraw b uid a with
  | .ok b2 => b2
  | .error _ => b

/-- Modelled from the spec: `Transfer(fromUserId, toPhone, amount)`
(routes/transfer.js is not under src).  Resolves the recipient by phone;
requires recipient exists, `fromUserId != recipientId`, `amount > 0`,
sufficient sender balance — checked in that order; then debits the sender and
credits the recipient as two separate document updates and writes one
transaction record per side. -/
def transfer (b : Bank) (fid : Nat) (toPhone : String) (a : Int) :
    Except BankError Bank :=
  match findUser b.users fid with
  | none => .error .UserNotFound
  | some s =>
      match findByPhone b.users toPhone with
      | none => .error .RecipientNotFound
      | some r =>
          if fid = r.id then .error .SelfTransfer
          else if a ≤ 0 then .error .InvalidAmount
          else if s.balance < a then .error .InsufficientFunds
          else
            let us1 := setBalance b.users s.id (s.balance - a)
            let us2 := setBalance us1 r.id (r.balance + a)
            .ok ⟨us2,
                 ⟨r.id, .transferCredit, a, r.balance + a, some fid⟩ ::
                 ⟨fid, .transferDebit, a, s.balance - a, some r.id⟩ ::
                 b.txns⟩

/-- Number of transaction records owned by a given user. -/
def countTx (b : Bank) (uid : Nat) : Nat :=
  (b.txns.filter (fun t => t.userId == uid)).length

/-- The balance-non-negativity invariant over the whole store. -/
def nonNegBank (b : Bank) : Prop :=
  ∀ u ∈ b.users, 0 ≤ u.balance

/-- One successful mutation of the Account Mutation Service. -/
inductive Step : Bank → Bank → Prop where
  | dep {b b2 : Bank} {uid : Nat} {a : Int} :
      deposit b uid a = .ok b2 → Step b b2
  | wd {b b2 : Bank} {uid : Nat} {a : Int} :
      withdraw b uid a = .ok b2 → Step b b2
  | tr {b b2 : Bank} {fid : Nat} {p : String} {a : Int} :
      transfer b fid p a = .ok b2 → Step b b2

/-- States reachable from an initial store through the mutation service. -/
inductive Reach (b0 : Bank) : Bank → Prop where
  | refl : Reach b0 b0
  | step {b b2 : Bank} : Reach b0 b → Step b b2 → Reach b0 b2

theorem findUser_id {us : List User} {uid : Nat} {u : User}
    (h : findUser us uid = some u) : u.id = uid := by
  have hp := List.find?_some h
  simpa using hp

theorem findUser_mem {us : List User} {uid : Nat} {u : User}
    (h : findUser us uid = some u) : u ∈ us :=
  List.mem_of_find?_eq_some h

theorem findByPhone_mem {us : List User} {p : String} {u : User}
    (h : findByPhone us p = some u) : u ∈ us :=
  List.mem_of_find?_eq_some h

theorem findUser_setBalance_self (us : List User) (uid : Nat) (nb : Int) :
    findUser (setBalance us uid nb) uid =
      (findUser us uid).map (fun u => { u with balance := nb }) := by
  induction us with
  | nil => rfl
  | cons h t ih =>
      simp only [setBalance, List.map_cons, findUser]
      by_cases hc : h.id = uid
      · rw [if_pos hc]
        rw [List.find?_cons_of_pos _ (by simp [hc]),
            List.find?_cons_of_pos _ (by simp [hc])]
        rfl
      · rw [if_neg hc]
        rw [List.find?_cons_of_neg _ (by simp [hc]),
            List.find?_cons_of_neg _ (by simp [hc])]
        exact ih

theorem findUser_setBalance_ne (us : List User) {uid vid : Nat} (nb : Int)
    (hne : vid ≠ uid) :
    findUser (setBalance us uid nb) vid = findUser us vid := by
  induction us with
  | nil => rfl
  | cons h t ih =>
      simp only [setBalance, List.map_cons, findUser]
      by_cases hc : h.id = uid
      · rw [if_pos hc]
        rw [List.find?_cons_of_neg _ (by simp [hc, Ne.symm hne]),
            List.find?_cons_of_neg _ (by simp [hc, Ne.symm hne])]
        exact ih
      · rw [if_neg hc]
        by_cases hv : h.id = vid
        · rw [List.find?_cons_of_pos _ (by simp [hv]),
              List.find?_cons_of_pos _ (by simp [hv])]
        · rw [List.find?_cons_of_neg _ (by simp [hv]),
              List.find?_cons_of_neg _ (by simp [hv])]
          exact ih

theorem findUser_of_mem_nodup {us : List User} {u : User}
    (hnd : (us.map (fun v => v.id)).Nodup) (hm : u ∈ us) :
    findUser us u.id = some u := by
  induction us with
  | nil => cases hm
  | cons h t ih =>
      have hnd2 : (h.id ∉ t.map (fun v => v.id)) ∧
          (t.map (fun v => v.id)).Nodup := by
        simpa [List.nodup_cons] using hnd
      rcases List.mem_cons.mp hm with rfl | hmt
      · exact List.find?_cons_of_pos _ (by simp)
      · by_cases hc : h.id = u.id
        · exact absurd (hc ▸ List.mem_map_of_mem (fun v => v.id) hmt) hnd2.1
        · rw [findUser, List.find?_cons_of_neg _ (by simp [hc])]
          exact ih hnd2.2 hmt

theorem nonNeg_setBalance {us : List User} {uid : Nat} {nb : Int}
    (h : ∀ u ∈ us, 0 ≤ u.balance) (hnb : 0 ≤ nb) :
    ∀ u ∈ setBalance us uid nb, 0 ≤ u.balance := by
  intro u hm
  rcases List.mem_map.mp hm with ⟨v, hv, rfl⟩
  by_cases hc : v.id = uid
  · simpa [hc] using hnb
  · simpa [hc] using h v hv

theorem deposit_nonNeg {b b2 : Bank} {uid : Nat} {a : Int}
    (hb : nonNegBank b) (h : deposit b uid a = .ok b2) : nonNegBank b2 := by
  by_cases ha : a ≤ 0
  · simp [deposit, ha] at h
  · cases hu : findUser b.users uid with
    | none => simp [deposit, ha, hu] at h
    | some u =>
        simp only [deposit, if_neg ha, hu] at h
        cases h
        intro v hv
        exact nonNeg_setBalance hb
          (add_nonneg (hb u (findUser_mem hu)) (le_of_lt (not_le.mp ha)))
          v hv

theorem withdraw_nonNeg {b b2 : Bank} {uid : Nat} {a : Int}
    (hb : nonNegBank b) (h : withdraw b uid a = .ok b2) : nonNegBank b2 := by
  by_cases ha : a ≤ 0
  · simp [withdraw, ha] at h
  · cases hu : findUser b.users uid with
    | none => simp [withdraw, ha, hu] at h
    | some u =>
        by_cases hlt : u.balance < a
        · simp [withdraw, ha, hu, hlt] at h
        · simp only [withdraw, if_neg ha, hu, if_neg hlt] at h
          cases h
          intro v hv
          exact nonNeg_setBalance hb (sub_nonneg.mpr (not_lt.mp hlt)) v hv

theorem transfer_nonNeg {b b2 : Bank} {fid : Nat} {p : String} {a : Int}
    (hb : nonNegBank b) (h : transfer b fid p a = .ok b2) : nonNegBank b2 := by
  cases hs : findUser b.users fid with
  | none => simp [transfer, hs] at h
  | some s =>
      cases hr : findByPhone b.users p with
      | none => simp [transfer, hs, hr] at h
      | some r =>
          by_cases hself : fid = r.id
          · simp only [transfer, hs, hr, if_pos hself] at h
            exact Except.noConfusion h
          · by_cases ha : a ≤ 0
            · simp [transfer, hs, hr, hself, ha] at h
            · by_cases hlt : s.balance < a
              · simp [transfer, hs, hr, hself, ha, hlt] at h
              · simp only [transfer, hs, hr, if_neg hself, if_neg ha,
                  if_neg hlt] at h
                cases h
                intro v hv
                refine nonNeg_setBalance
                  (nonNeg_setBalance hb (sub_nonneg.mpr (not_lt.mp hlt)))
                  ?_ v hv
                exact add_nonneg (hb r (findByPhone_mem hr))
                  (le_of_lt (not_le.mp ha))

/-- C3: every state reachable from a store whose balances are all
non-negative again has only non-negative balances: Deposit, Withdraw and
Transfer each preserve the non-negativity invariant. -/
theorem reachable_balance_nonneg (b0 b : Bank) (h0 : nonNegBank b0)
    (hr : Reach b0 b) : nonNegBank b := by
  induction hr with
  | refl => exact h0
  | step _ hs ih =>
      cases hs with
      | dep h => exact deposit_nonNeg ih h
      | wd h => exact withdraw_nonNeg ih h
      | tr h => exact transfer_nonNeg ih h

/-- A concrete two-account store used by the witnesses. -/
def u1Ex : User := ⟨1, "9000000001", 100⟩

def u2Ex : User := ⟨2, "9000000002", 50⟩

def bEx : Bank := ⟨[u1Ex, u2Ex], []⟩

/-- The store obtained from `bEx` by a successful deposit of 7 to account 1. -/
def bExDep : Bank :=
  ⟨[⟨1, "9000000001", 107⟩, ⟨2, "9000000002", 50⟩],
   [⟨1, .deposit, 7, 107, none⟩]⟩

theorem reachable_balance_nonneg_witness : nonNegBank bExDep :=
  reachable_balance_nonneg bEx bExDep
    (by simp [nonNegBank, bEx, u1Ex, u2Ex])
    (Reach.step Reach.refl
      (Step.dep (rfl : deposit bEx 1 7 = Except.ok bExDep)))

/-- C4: when the user exists, a deposit of a positive amount succeeds,
increases the balance by exactly that amount and appends exactly one
transaction record for that user; a non-positive amount fails with
`InvalidAmount`. -/
theorem deposit_correct (b : Bank) (uid : Nat) (a : Int) (u : User)
    (hu : findUser b.users uid = some u) :
    (0 < a → ∃ b2, deposit b uid a = .ok b2
        ∧ getBalance b2 uid = some (u.balance + a)
        ∧ b2.txns.length = b.txns.length + 1
        ∧ countTx b2 uid = countTx b uid + 1)
    ∧ (a ≤ 0 → deposit b uid a = .error .InvalidAmount) := by
  constructor
  · intro hpos
    refine ⟨⟨setBalance b.users uid (u.balance + a),
             ⟨uid, .deposit, a, u.balance + a, none⟩ :: b.txns⟩, ?_, ?_, ?_, ?_⟩
    · simp only [deposit, if_neg (not_le.mpr hpos), hu]
    · simp [getBalance, findUser_setBalance_self, hu]
    · simp
    · simp [countTx, List.filter_cons]
  · intro hneg
    simp [deposit, hneg]

theorem deposit_correct_witness :
    ∃ b2, deposit bEx 1 7 = .ok b2
      ∧ getBalance b2 1 = some (100 + 7)
      ∧ b2.txns.length = bEx.txns.length + 1
      ∧ countTx b2 1 = countTx bEx 1 + 1 :=
  (deposit_correct bEx 1 7 u1Ex (by decide)).1 (by decide)

/-- C2: withdrawing more than the (non-negative) balance fails with
`InsufficientFunds`, and the store the caller holds afterwards is the
untouched one: the balance is unchanged. -/
theorem withdraw_insufficient_funds (b : Bank) (uid : Nat) (a : Int) (u : User)
    (hu : findUser b.users uid = some u) (hnn : 0 ≤ u.balance)
    (hgt : u.balance < a) :
    withdraw b uid a = .error .InsufficientFunds ∧ withdrawRun b uid a = b := by
  have hpos : ¬ a ≤ 0 := not_le.mpr (lt_of_le_of_lt hnn hgt)
  have h1 : withdraw b uid a = .error .InsufficientFunds := by
    simp only [withdraw, if_neg hpos, hu, if_pos hgt]
  exact ⟨h1, by simp [withdrawRun, h1]⟩

theorem withdraw_insufficient_funds_witness :
    withdraw bEx 2 60 = .error .InsufficientFunds
      ∧ withdrawRun bEx 2 60 = bEx :=
  withdraw_insufficient_funds bEx 2 60 u2Ex (by decide) (by decide) (by decide)

/-- C1: a valid transfer between two distinct existing accounts debits the
sender by exactly the amount, credits the recipient by exactly the amount,
and conserves the sum of the two balances. -/
theorem transfer_valid_conserves (b : Bank) (fid : Nat) (p : String) (a : Int)
    (s r : User)
    (hnd : (b.users.map (fun v => v.id)).Nodup)
    (hs : findUser b.users fid = some s)
    (hr : findByPhone b.users p = some r)
    (hne : fid ≠ r.id)
    (hpos : 0 < a) (hbal : a ≤ s.balance) :
    ∃ b2, transfer b fid p a = .ok b2
      ∧ getBalance b fid = some s.balance
      ∧ getBalance b r.id = some r.balance
      ∧ getBalance b2 fid = some (s.balance - a)
      ∧ getBalance b2 r.id = some (r.balance + a)
      ∧ (s.balance - a) + (r.balance + a) = s.balance + r.balance := by
  have hsid : s.id = fid := findUser_id hs
  have hrfind : findUser b.users r.id = some r :=
    findUser_of_mem_nodup hnd (findByPhone_mem hr)
  have hrs : r.id ≠ s.id := fun hcontra => hne (hsid ▸ hcontra).symm
  refine ⟨⟨setBalance (setBalance b.users s.id (s.balance - a)) r.id
             (r.balance + a),
           ⟨r.id, .transferCredit, a, r.balance + a, some fid⟩ ::
           ⟨fid, .transferDebit, a, s.balance - a, some r.id⟩ :: b.txns⟩,
    ?_, ?_, ?_, ?_, ?_, ?_⟩
  · simp only [transfer, hs, hr, if_neg hne, if_neg (not_le.mpr hpos),
      if_neg (not_lt.mpr hbal)]
  · simp [getBalance, hs]
  · simp [getBalance, hrfind]
  · have h1 : findUser (setBalance (setBalance b.users s.id (s.balance - a))
        r.id (r.balance + a)) fid
        = findUser (setBalance b.users s.id (s.balance - a)) fid :=
      findUser_setBalance_ne _ _ hne
    have hs2 : findUser b.users s.id = some s := by rw [hsid]; exact hs
    have h2 := findUser_setBalance_self b.users s.id (s.balance - a)
    rw [hs2] at h2
    have h3 : findUser (setBalance b.users s.id (s.balance - a)) fid
        = some { s with balance := s.balance - a } := by
      rw [← hsid]; exact h2
    simp [getBalance, h1, h3]
  · have h1 := findUser_setBalance_self
      (setBalance b.users s.id (s.balance - a)) r.id (r.balance + a)
    have h2 : findUser (setBalance b.users s.id (s.balance - a)) r.id
        = findUser b.users r.id := findUser_setBalance_ne _ _ hrs
    simp [getBalance, h1, h2, hrfind]
  · ring

theorem transfer_valid_conserves_witness :
    ∃ b2, transfer bEx 1 "9000000002" 30 = .ok b2
      ∧ getBalance bEx 1 = some 100
      ∧ getBalance bEx 2 = some 50
      ∧ getBalance b2 1 = some (100 - 30)
      ∧ getBalance b2 2 = some (50 + 30)
      ∧ (100 - 30 : Int) + (50 + 30) = 100 + 50 :=
  transfer_valid_conserves bEx 1 "9000000002" 30 u1Ex u2Ex (by decide)
    (by decide) (by decide) (by decide) (by decide) (by decide)

/-- C8: a transfer whose recipient phone resolves to the sender itself is
rejected with `SelfTransfer`, for every amount (the self check precedes the
amount check). -/
theorem transfer_self_rejected (b : Bank) (uid : Nat) (a : Int) (u : User)
    (hu : findUser b.users uid = some u)
    (hp : findByPhone b.users u.phone = some u) :
    transfer b uid u.phone a = .error .SelfTransfer := by
  have hid : u.id = uid := findUser_id hu
  simp only [transfer, hu, hp, if_pos hid.symm]

theorem transfer_self_rejected_witness :
    transfer bEx 1 "9000000001" (-4) = .error .SelfTransfer :=
  transfer_self_rejected bEx 1 (-4) u1Ex (by decide) (by decide)

/-- An Admin record as persisted in the Admin collection. -/
structure AdminRec where
  phone : String
  password : String
deriving DecidableEq

/-- Modelled from the spec: models/admin.js is not under src; per the data
model table the Admin `password` field is persisted hashed.  The hash is
modelled as a tagging function whose output differs from every plaintext. -/
def hashPassword (pw : String) : String := "$2b$10$" ++ pw

/-- Embeds the admin seeding step of `startMongo` (server.js lines 65-77):
look up an Admin record with the configured phone; when none exists, persist
a new Admin with that phone and the configured password (hashed on save,
see `hashPassword`); otherwise perform no write. -/
def seedAdmin (admins : List AdminRec) (p pw : String) : List AdminRec :=
  match admins.find? (fun ad => ad.phone == p) with
  | some _ => admins
  | none => admins ++ [⟨p, hashPassword pw⟩]

/-- `n` sequential process boots, each running the seeding step. -/
def seedBoots : Nat → List AdminRec → String → String → List AdminRec
  | 0, s, _, _ => s
  | n + 1, s, p, pw => seedBoots n (seedAdmin s p pw) p pw

/-- Number of Admin records with the given phone. -/
def countAdmins (admins : List AdminRec) (p : String) : Nat :=
  (admins.filter (fun ad => ad.phone == p)).length

theorem find_seedAdmin_some (s : List AdminRec) (p pw : String) :
    ∃ ad, (seedAdmin s p pw).find? (fun ad => ad.phone == p) = some ad := by
  cases hf : s.find? (fun ad => ad.phone == p) with
  | some a => exact ⟨a, by simp [seedAdmin, hf]⟩
  | none =>
      refine ⟨⟨p, hashPassword pw⟩, ?_⟩
      simp [seedAdmin, hf, List.find?_append]

theorem seedAdmin_idem (s : List AdminRec) (p pw pw2 : String) :
    seedAdmin (seedAdmin s p pw) p pw2 = seedAdmin s p pw := by
  obtain ⟨ad, had⟩ := find_seedAdmin_some s p pw
  show (match (seedAdmin s p pw).find? (fun ad => ad.phone == p) with
        | some _ => seedAdmin s p pw
        | none => seedAdmin s p pw ++ [⟨p, hashPassword pw2⟩])
      = seedAdmin s p pw
  rw [had]

theorem seedBoots_of_seeded (n : Nat) (s : List AdminRec) (p pw : String) :
    seedBoots n (seedAdmin s p pw) p pw = seedAdmin s p pw := by
  induction n generalizing s with
  | zero => rfl
  | succ n ih =>
      show seedBoots n (seedAdmin (seedAdmin s p pw) p pw) p pw
          = seedAdmin s p pw
      rw [seedAdmin_idem]
      exact ih s

theorem countAdmins_seed_of_absent (s : List AdminRec) (p pw : String)
    (h : s.find? (fun ad => ad.phone == p) = none) :
    countAdmins (seedAdmin s p pw) p = 1 := by
  have hfil : s.filter (fun ad => ad.phone == p) = [] := by
    rw [List.filter_eq_nil_iff]
    intro a ha
    exact List.find?_eq_none.mp h a ha
  simp [countAdmins, seedAdmin, h, List.filter_append, hfil]

/-- C5: admin seeding is idempotent: a second run against a store already
holding an Admin with the configured phone performs no write, and starting
from a store with no such Admin, any positive number of sequential boots
leaves exactly one Admin record with that phone. -/
theorem admin_seed_idempotent (s : List AdminRec) (p pw : String)
    (h : countAdmins s p = 0) :
    seedAdmin (seedAdmin s p pw) p pw = seedAdmin s p pw
    ∧ ∀ n, countAdmins (seedBoots (n + 1) s p pw) p = 1 := by
  have hfind : s.find? (fun ad => ad.phone == p) = none := by
    rw [List.find?_eq_none]
    intro x hx hpx
    have hnil : s.filter (fun ad => ad.phone == p) = [] :=
      List.length_eq_zero.mp h
    exact absurd hpx (List.filter_eq_nil_iff.mp hnil x hx)
  refine ⟨seedAdmin_idem s p pw pw, fun n => ?_⟩
  show countAdmins (seedBoots n (seedAdmin s p pw) p pw) p = 1
  rw [seedBoots_of_seeded]
  exact countAdmins_seed_of_absent s p pw hfind

theorem admin_seed_idempotent_witness :
    seedAdmin (seedAdmin [] "8888888888" "admin@123") "8888888888" "admin@123"
      = seedAdmin [] "8888888888" "admin@123"
    ∧ countAdmins (seedBoots 2 [] "8888888888" "admin@123") "8888888888" = 1 :=
  ⟨(admin_seed_idempotent [] "8888888888" "admin@123" rfl).1,
   (admin_seed_idempotent [] "8888888888" "admin@123" rfl).2 1⟩

/-- C7: the Admin record persisted by the seeding step carries the hash of
the configured default password, not the plaintext value. -/
theorem admin_seed_password_hashed (s : List AdminRec) (p pw : String)
    (h : s.find? (fun ad => ad.phone == p) = none) :
    ∃ ad, (seedAdmin s p pw).find? (fun a2 => a2.phone == p) = some ad
      ∧ ad.password = hashPassword pw ∧ ad.password ≠ pw := by
  refine ⟨⟨p, hashPassword pw⟩, ?_, rfl, ?_⟩
  · simp [seedAdmin, h, List.find?_append]
  · intro hcontra
    have hlen := congrArg String.length hcontra
    rw [hashPassword, String.length_append,
        show ("$2b$10$" : String).length = 7 from rfl] at hlen
    omega

theorem admin_seed_password_hashed_witness :
    ∃ ad, (seedAdmin [] "8888888888" "admin@123").find?
        (fun a2 => a2.phone == "8888888888") = some ad
      ∧ ad.password = hashPassword "admin@123" ∧ ad.password ≠ "admin@123" :=
  admin_seed_password_hashed [] "8888888888" "admin@123" rfl

/-- The client-side state of the admin dashboard (AdminDashboard.jsx):
stored credentials, current location, the user-facing message region, the
employees list and the fetching flag. -/
structure AdminClient where
  token : Option String
  storedUser : Option String
  location : String
  message : String
  employees : List String
  fetching : Bool
deriving DecidableEq

/-- The client-side state of the employee dashboard (EmployeeDashboard.jsx). -/
structure EmployeeClient where
  token : Option String
  storedUser : Option String
  location : String
  message : String
  users : List String
  loadingUsers : Bool
deriving DecidableEq

/-- A server response as the dashboards consume it: HTTP status, the
optional `message` field of the JSON body, and the collection payloads. -/
structure Resp where
  status : Nat
  message : Option String
  employees : List String
  users : List String
deriving DecidableEq

/-- `res.ok` of the fetch API: status in the 200-299 range. -/
def respOk (r : Resp) : Bool :=
  decide (200 ≤ r.status) && decide (r.status ≤ 299)

/-- JS `x || d` over an optional string field: the default replaces a
missing or empty (falsy) value. -/
def jsOr (v : Option String) (d : String) : String :=
  match v with
  | some s => if s == "" then d else s
  | none => d

/-- Embeds `handleLogout` of AdminDashboard.jsx: remove the stored token
and user and navigate to the login view. -/
def adminLogout (st : AdminClient) : AdminClient :=
  { st with token := none, storedUser := none, location := "/login" }

/-- Embeds `handleLogout` of EmployeeDashboard.jsx. -/
def employeeLogout (st : EmployeeClient) : EmployeeClient :=
  { st with token := none, storedUser := none, location := "/login" }

/-- Embeds the response side of `authFetch` in AdminDashboard.jsx: on a 401
status run `handleLogout` and throw the distinguished error; otherwise hand
the response back.  The second component is the thrown message, if any. -/
def adminAuthFetch (st : AdminClient) (r : Resp) :
    AdminClient × Option String :=
  if r.status == 401 then (adminLogout st, some "Unauthorized. Logged out.")
  else (st, none)

/-- Embeds the response side of `authFetch` in EmployeeDashboard.jsx: on a
401 status clear the stored credentials, navigate to the login view and
throw `Unauthorized`. -/
def employeeAuthFetch (st : EmployeeClient) (r : Resp) :
    EmployeeClient × Option String :=
  if r.status == 401 then (employeeLogout st, some "Unauthorized")
  else (st, none)

/-- Embeds `fetchEmployees` of AdminDashboard.jsx around one response:
clear the message, set the fetching flag, run the wrapped fetch, store the
employees on ok, otherwise put the failure text — including the text of any
thrown error — into the message region, and clear the fetching flag. -/
def fetchEmployees (st : AdminClient) (r : Resp) : AdminClient :=
  let st1 := { st with fetching := true, message := "" }
  let pair := adminAuthFetch st1 r
  let st2 :=
    match pair.2 with
    | some m => { pair.1 with message := m }
    | none =>
        if respOk r then { pair.1 with employees := r.employees }
        else { pair.1 with
               message := jsOr r.message "Failed to fetch employees" }
  { st2 with fetching := false }

/-- Embeds `fetchUsers` of EmployeeDashboard.jsx around one response: as
`fetchEmployees`, except that a thrown error whose text is exactly
`Unauthorized` is suppressed from the message region. -/
def fetchUsers (st : EmployeeClient) (r : Resp) : EmployeeClient :=
  let st1 := { st with message := "", loadingUsers := true }
  let pair := employeeAuthFetch st1 r
  let st2 :=
    match pair.2 with
    | some m =>
        if m == "Unauthorized" then pair.1
        else { pair.1 with message := m }
    | none =>
        if respOk r then { pair.1 with users := r.users }
        else { pair.1 with message := jsOr r.message "Failed to fetch users" }
  { st2 with loadingUsers := false }

/-- A concrete admin dashboard state with a live session. -/
def stAdminEx : AdminClient :=
  ⟨some "tok", some "alice", "/admin", "", [], false⟩

/-- A concrete employee dashboard state with a live session. -/
def stEmployeeEx : EmployeeClient :=
  ⟨some "tok", some "bob", "/employee", "", [], false⟩

/-- A bare 401 response. -/
def resp401 : Resp := ⟨401, none, [], []⟩

/-- C6 fails on AdminDashboard.jsx: after a 401 the thrown error text
`Unauthorized. Logged out.` lands in the user-facing message region instead
of being suppressed. -/
theorem admin_unauthorized_displayed_cex :
    (fetchEmployees stAdminEx resp401).message = "Unauthorized. Logged out."
    ∧ (fetchEmployees stAdminEx resp401).message ≠ "" :=
  ⟨rfl, by decide⟩

/-- C6 amended: on a 401 response both dashboards clear the stored token
and user and navigate to the login view; the employee dashboard caller
suppresses the distinguished Unauthorized error from the message region,
while the admin dashboard caller writes `Unauthorized. Logged out.` into
the message region. -/
theorem unauthorized_handling_amended (sa : AdminClient)
    (se : EmployeeClient) (r : Resp) (h : r.status = 401) :
    ((fetchEmployees sa r).token = none
      ∧ (fetchEmployees sa r).storedUser = none
      ∧ (fetchEmployees sa r).location = "/login"
      ∧ (fetchEmployees sa r).message = "Unauthorized. Logged out.")
    ∧ ((fetchUsers se r).token = none
      ∧ (fetchUsers se r).storedUser = none
      ∧ (fetchUsers se r).location = "/login"
      ∧ (fetchUsers se r).message = "") := by
  constructor <;>
    simp [fetchEmployees, fetchUsers, adminAuthFetch, employeeAuthFetch,
      adminLogout, employeeLogout, h]

theorem unauthorized_handling_amended_witness :
    ((fetchEmployees stAdminEx resp401).token = none
      ∧ (fetchEmployees stAdminEx resp401).storedUser = none
      ∧ (fetchEmployees stAdminEx resp401).location = "/login"
      ∧ (fetchEmployees stAdminEx resp401).message
          = "Unauthorized. Logged out.")
    ∧ ((fetchUsers stEmployeeEx resp401).token = none
      ∧ (fetchUsers stEmployeeEx resp401).storedUser = none
      ∧ (fetchUsers stEmployeeEx resp401).location = "/login"
      ∧ (fetchUsers stEmployeeEx resp401).message = "") :=
  unauthorized_handling_amended stAdminEx stEmployeeEx resp401 rfl

/-- Lookup of a header value in a header map (JS object read). -/
def getHeader (hs : List (String × String)) (k : String) : Option String :=
  (hs.find? (fun q => q.1 == k)).map (fun q => q.2)

/-- Assignment of a header in a header map (JS object write: the new value
shadows any previous binding of the key). -/
def setHeader (hs : List (String × String)) (k v : String) :
    List (String × String) :=
  (k, v) :: hs.filter (fun q => !(q.1 == k))

/-- Embeds `headers["Content-Type"] = headers["Content-Type"] ||
"application/json"` shared by both `authFetch` wrappers: default the
content type when it is absent or empty. -/
def defaultContentType (hs : List (String × String)) :
    List (String × String) :=
  match getHeader hs "Content-Type" with
  | some v =>
      if v == "" then setHeader hs "Content-Type" "application/json" else hs
  | none => setHeader hs "Content-Type" "application/json"

/-- Embeds the header construction of `authFetch` in AdminDashboard.jsx:
spread the caller's headers, set `Authorization` to `Bearer <token>` when a
token is stored (JS truthiness: present and non-empty), then default the
content type unconditionally. -/
def adminAuthHeaders (base : List (String × String))
    (token : Option String) : List (String × String) :=
  let h1 :=
    match token with
    | some t =>
        if t == "" then base
        else setHeader base "Authorization" ("Bearer " ++ t)
    | none => base
  defaultContentType h1

/-- Embeds the header construction of `authFetch` in EmployeeDashboard.jsx:
same token handling; the content type is defaulted only when a non-FormData
body is present. -/
def employeeAuthHeaders (base : List (String × String))
    (token : Option String) (hasBody isFormData : Bool) :
    List (String × String) :=
  let h1 :=
    match token with
    | some t =>
        if t == "" then base
        else setHeader base "Authorization" ("Bearer " ++ t)
    | none => base
  if hasBody && !isFormData then defaultContentType h1 else h1

theorem getHeader_setHeader_self (hs : List (String × String))
    (k v : String) : getHeader (setHeader hs k v) k = some v := by
  unfold getHeader setHeader
  rw [List.find?_cons_of_pos _ (by simp)]
  rfl

theorem find?_filter_ne {k k2 : String} (hne : k2 ≠ k)
    (l : List (String × String)) :
    List.find? (fun q => q.1 == k2) (l.filter (fun q => !(q.1 == k)))
      = List.find? (fun q => q.1 == k2) l := by
  induction l with
  | nil => rfl
  | cons h t ih =>
      by_cases hc : h.1 = k
      · rw [List.filter_cons_of_neg (by simp [hc])]
        rw [List.find?_cons_of_neg _ (by simp [hc, Ne.symm hne])]
        exact ih
      · rw [List.filter_cons_of_pos (by simp [hc])]
        by_cases hc2 : h.1 = k2
        · rw [List.find?_cons_of_pos _ (by simp [hc2]),
              List.find?_cons_of_pos _ (by simp [hc2])]
        · rw [List.find?_cons_of_neg _ (by simp [hc2]),
              List.find?_cons_of_neg _ (by simp [hc2])]
          exact ih

theorem getHeader_setHeader_ne (hs : List (String × String))
    {k k2 : String} (v : String) (hne : k2 ≠ k) :
    getHeader (setHeader hs k v) k2 = getHeader hs k2 := by
  unfold getHeader setHeader
  rw [List.find?_cons_of_neg _ (by simp [Ne.symm hne])]
  rw [find?_filter_ne hne]

theorem getHeader_defaultContentType_auth (hs : List (String × String)) :
    getHeader (defaultContentType hs) "Authorization"
      = getHeader hs "Authorization" := by
  unfold defaultContentType
  split
  · split
    · exact getHeader_setHeader_ne hs _ (by decide)
    · rfl
  · exact getHeader_setHeader_ne hs _ (by decide)

/-- C9: whenever a token is stored (present and non-empty, per JS
truthiness), every request built by either dashboard's `authFetch` carries
an `Authorization` header equal to `Bearer ` followed by the stored
token. -/
theorem authfetch_bearer_header (base : List (String × String)) (t : String)
    (hasBody isFormData : Bool) (h : t ≠ "") :
    getHeader (adminAuthHeaders base (some t)) "Authorization"
        = some ("Bearer " ++ t)
    ∧ getHeader (employeeAuthHeaders base (some t) hasBody isFormData)
        "Authorization" = some ("Bearer " ++ t) := by
  have hb : ¬ ((t == "") = true) := by simpa using h
  constructor
  · show getHeader (defaultContentType (if t == "" then base
        else setHeader base "Authorization" ("Bearer " ++ t)))
      "Authorization" = some ("Bearer " ++ t)
    rw [if_neg hb, getHeader_defaultContentType_auth]
    exact getHeader_setHeader_self base "Authorization" ("Bearer " ++ t)
  · show getHeader (if hasBody && !isFormData
        then defaultContentType (if t == "" then base
          else setHeader base "Authorization" ("Bearer " ++ t))
        else (if t == "" then base
          else setHeader base "Authorization" ("Bearer " ++ t)))
      "Authorization" = some ("Bearer " ++ t)
    rw [if_neg hb]
    cases hbf : (hasBody && !isFormData) with
    | true =>
        rw [if_pos rfl, getHeader_defaultContentType_auth]
        exact getHeader_setHeader_self base "Authorization" ("Bearer " ++ t)
    | false =>
        rw [if_neg (by simp : ¬ ((false : Bool) = true))]
        exact getHeader_setHeader_self base "Authorization" ("Bearer " ++ t)

theorem authfetch_bearer_header_witness :
    getHeader (adminAuthHeaders [] (some "tok")) "Authorization"
        = some ("Bearer " ++ "tok")
    ∧ getHeader (employeeAuthHeaders [] (some "tok") true false)
        "Authorization" = some ("Bearer " ++ "tok") :=
  authfetch_bearer_header [] "tok" true false (by decide)

/-- Embeds `handleDelete` of AdminDashboard.jsx around one confirmation
result and one response: a declined confirm dialog returns immediately;
otherwise the message is cleared, the DELETE request is issued through
`authFetch` and the response handled (with a refetch of the employees list
on success).  The second component lists the HTTP requests issued. -/
def handleDelete (st : AdminClient) (id : String) (confirmed : Bool)
    (r : Resp) : AdminClient × List String :=
  if !confirmed then (st, [])
  else
    let req := "DELETE /api/admin/employee/" ++ id
    let st1 := { st with message := "" }
    let pair := adminAuthFetch st1 r
    match pair.2 with
    | some m => ({ pair.1 with message := m }, [req])
    | none =>
        if respOk r then
          ({ pair.1 with message := "✅ Employee deleted successfully!" },
           [req, "GET /api/admin/employees"])
        else
          ({ pair.1 with
             message := jsOr r.message "Failed to delete employee" },
           [req])

/-- C10: declining the confirm dialog issues no HTTP request and leaves the
client state (employees list, message, everything) unchanged; the DELETE
request is among the requests issued exactly when the confirmation returned
true. -/
theorem handle_delete_confirm_frame (st : AdminClient) (id : String)
    (r : Resp) :
    handleDelete st id false r = (st, [])
    ∧ ("DELETE /api/admin/employee/" ++ id)
        ∈ (handleDelete st id true r).2 := by
  refine ⟨rfl, ?_⟩
  by_cases h4 : r.status = 401
  · simp [handleDelete, adminAuthFetch, h4]
  · have hb : (r.status == 401) = false := by simp [h4]
    cases hok : respOk r with
    | true => simp [handleDelete, adminAuthFetch, hb, hok]
    | false => simp [handleDelete, adminAuthFetch, hb, hok]
